import Mathlib

/-!
Shallow embedding of the k6 reporting framework
(source: src/011-reporting-framework.js) and verification of its
specification.  JavaScript numbers are modelled as exact rationals
(`ℚ`); `NaN`/`Infinity` do not arise in the model, and the
`isFinite` filters of the source are therefore `Option.isSome`
tests.  JavaScript `undefined`/missing-property accesses are
modelled with `Option`.
-/

/-- Two-digit zero padding used by the `toFixed(2)` model. -/
def pad2 (k : ℕ) : String :=
  if k < 10 then "0" ++ toString k else toString k

/-- Models ECMAScript `Number.prototype.toFixed(2)` over exact
rationals: the magnitude is rounded to the nearest multiple of 1/100
(ties away from zero, per the ECMAScript algorithm on the magnitude),
and a `-` sign is prepended for negative inputs.  Binary
floating-point representation error is abstracted away.  The rounding
is written with `Rat.num`/`Rat.den` so that it evaluates by kernel
reduction: for `m ≥ 0`, `m.num / m.den` (integer division) is `⌊m⌋`. -/
def toFixed2 (q : ℚ) : String :=
  let mag : ℚ := if q < 0 then -q else q
  let m : ℚ := mag * 100 + 1/2
  let n : ℕ := (m.num / (m.den : ℤ)).toNat
  (if q < 0 then "-" else "") ++ toString (n / 100) ++ "." ++ pad2 (n % 100)

/-! ### Duration parser (`parseDuration`)

The source scans the input with the global regex `(\d+)([smh])/g`:
maximal digit runs immediately followed by a unit letter are matched;
anything else is skipped.  `scanAux` performs the same left-to-right
scan, carrying the value of the digit run currently being read
(`none` when the last character was not part of a pending run). -/

/-- One left-to-right pass of the regex scan `(\d+)([smh])/g`:
returns the list of `(value, unit)` matches.  `pending` is the value
of the digit run read so far. -/
def scanAux : Option ℕ → List Char → List (ℕ × Char)
  | _, [] => []
  | pending, c :: rest =>
    if c.isDigit then
      scanAux (some ((pending.getD 0) * 10 + (c.toNat - '0'.toNat))) rest
    else
      match pending with
      | some v =>
        if c = 's' ∨ c = 'm' ∨ c = 'h' then (v, c) :: scanAux none rest
        else scanAux none rest
      | none => scanAux none rest

/-- Sum of matched tokens in seconds: the `switch (unit)` of the
source (`s`, `m` ×60, `h` ×3600; no other unit is ever produced). -/
def sumTokens (tokens : List (ℕ × Char)) : ℕ :=
  tokens.foldl
    (fun totalSeconds t =>
      if t.2 = 's' then totalSeconds + t.1
      else if t.2 = 'm' then totalSeconds + t.1 * 60
      else if t.2 = 'h' then totalSeconds + t.1 * 3600
      else totalSeconds) 0

/-- `parseDuration` from the source: early return 0 for falsy input or
`"0s"`, otherwise sum all regex matches. -/
def parseDuration (duration : String) : ℕ :=
  if duration = "" ∨ duration = "0s" then 0
  else sumTokens (scanAux none duration.data)

/-! ### Phase resolver (`getCurrentPhase`)

`ScenarioConfig` models the configuration objects consumed by the
resolver: only the fields the resolver reads (`startTime`, `phases`)
are kept; display-only fields (`name`, `gracefulRampDown`, ...) are
omitted.  A missing JS property is `none`.  The live `Date.now()`
read of the source is passed in explicitly as the `now` argument
(milliseconds, like `testStartTime`). -/

/-- One declared load phase.  The resolver only reads `duration`;
`name` and `target` are carried for fidelity to the config shape. -/
structure Phase where
  name : String
  duration : String
  target : ℕ
deriving DecidableEq

/-- A scenario configuration as read by the resolver. -/
structure ScenarioConfig where
  startTime : Option String
  phases : Option (List Phase)

/-- The `scenarioElapsed` quantity of `getCurrentPhase`:
`(now - testStartTime)/1000 - parseDuration(config.startTime or "0s")`. -/
def scenarioElapsed (config : ScenarioConfig) (testStartTime now : ℚ) : ℚ :=
  (now - testStartTime) / 1000 - (parseDuration (config.startTime.getD "0s") : ℕ)

/-- The `for` loop of `getCurrentPhase`: walk the phases accumulating
durations, returning the index of the first phase whose cumulative
end exceeds `elapsed`. -/
def phaseLoop (elapsed : ℚ) : ℚ → ℕ → List Phase → Option ℕ
  | _, _, [] => none
  | cumulativeDuration, i, p :: rest =>
    let phaseDuration : ℚ := (parseDuration p.duration : ℕ)
    if elapsed < cumulativeDuration + phaseDuration then some i
    else phaseLoop elapsed (cumulativeDuration + phaseDuration) (i + 1) rest

/-- `getCurrentPhase` from the source.  `config?.phases` being
falsy (missing config or missing `phases`) returns `null`; note that
an empty `phases` array is truthy in JS and simply makes the loop
return `null`. -/
def getCurrentPhase (scenarioName : String)
    (scenarioConfig : String → Option ScenarioConfig)
    (testStartTime now : ℚ) : Option ℕ :=
  match scenarioConfig scenarioName with
  | none => none
  | some config =>
    match config.phases with
    | none => none
    | some phases =>
      if scenarioElapsed config testStartTime now < 0 then none
      else phaseLoop (scenarioElapsed config testStartTime now) 0 0 phases

/-- Cumulative duration through phase `k` (inclusive), in seconds:
the spec's `cumulativeDurationThroughPhase(k)`. -/
def cumDur (phases : List Phase) (k : ℕ) : ℚ :=
  ((phases.take (k + 1)).map (fun p => ((parseDuration p.duration : ℕ) : ℚ))).sum

/-- Total duration of all phases, in seconds. -/
def totalDur (phases : List Phase) : ℚ :=
  (phases.map (fun p => ((parseDuration p.duration : ℕ) : ℚ))).sum

/-- Fixture: the spec's example phase list (1m then 2m). -/
def exPhases : List Phase := [⟨"p0", "1m", 10⟩, ⟨"p1", "2m", 20⟩]

/-- Fixture: a config map holding the example scenario at offset 0s. -/
def exConfigMap : String → Option ScenarioConfig :=
  fun s => if s = "sc" then some ⟨some "0s", some exPhases⟩ else none

/-! ### End-of-test metric data (`data.metrics`)

At the end of a run, k6 hands the summary callbacks a `data` object
whose `metrics` property maps metric names to objects with a `values`
property.  Counter metrics expose `values.count`; trend metrics
expose `values.min/max/avg/p(90)/p(95)/p(99)`.  All fields are
modelled as optional, mirroring the defensive `?.` / `|| 0` accesses
of the source. -/

/-- The `values` object of one metric; absent properties are `none`. -/
structure MVals where
  count : Option ℚ
  min : Option ℚ
  max : Option ℚ
  avg : Option ℚ
  p90 : Option ℚ
  p95 : Option ℚ
  p99 : Option ℚ
deriving DecidableEq

/-- One entry of `data.metrics`; `values` itself may be absent. -/
structure Metric where
  values : Option MVals
deriving DecidableEq

/-- The `data` object passed to the report builders. -/
structure MetricsData where
  metrics : String → Option Metric

/-- `data.metrics[name]?.values`. -/
def getValues (data : MetricsData) (name : String) : Option MVals :=
  (data.metrics name).bind (·.values)

/-- Metric name `count_<api>_<scenario>`. -/
def countName (api scenario : String) : String :=
  "count_" ++ api ++ "_" ++ scenario

/-- Metric name `failed_<api>_<scenario>`. -/
def failedName (api scenario : String) : String :=
  "failed_" ++ api ++ "_" ++ scenario

/-- Metric name `duration_<api>_<scenario>`. -/
def durationName (api scenario : String) : String :=
  "duration_" ++ api ++ "_" ++ scenario

/-- Metric name `status_<code>_<api>_<scenario>`. -/
def statusName (code : ℕ) (api scenario : String) : String :=
  "status_" ++ toString code ++ "_" ++ api ++ "_" ++ scenario

/-- The tracked HTTP status codes of `initializeMetrics` and
`buildApiErrorCorrelation`. -/
def trackedCodes : List ℕ := [400, 401, 403, 404, 500, 502, 503, 504]

/-! ### Aggregator: summary statistics and rows -/

/-- The numeric local variables (`total`, `failed`, `min`, ...,
`p99`) each table builder computes before pushing a row. -/
structure StatsQ where
  total : ℚ
  failed : ℚ
  min : ℚ
  max : ℚ
  avg : ℚ
  p90 : ℚ
  p95 : ℚ
  p99 : ℚ
deriving DecidableEq

/-- An SLA entry; the spec allows any subset of the percentile
thresholds to be present. -/
structure SLAEntry where
  p90 : Option ℚ
  p95 : Option ℚ
  p99 : Option ℚ
deriving DecidableEq

/-- The SLA mapping; `none` for an api models both a missing entry
and a falsy/missing SLA object. -/
def SLAMap : Type := String → Option SLAEntry

/-- A summary table row as pushed by the builders: the latency
statistics and the error percentage are rendered with `toFixed(2)`
at push time; counts and the status are raw. -/
structure SummaryRow where
  api : String
  sla : Option ℚ
  min : String
  max : String
  avg : String
  p90 : String
  p95 : String
  p99 : String
  total : ℚ
  passed : ℚ
  failed : ℚ
  errorPct : String
  status : String
deriving DecidableEq

/-- The row-assembly tail shared verbatim by `buildScenarioTable`,
`buildPhaseTable` and `buildOverallAggregateTable` (the source
repeats this code textually in all three builders): `passed`,
`errorPct` (JS truthiness on `total`), `hasSLA`, `slaP90`
(`'N/A'` is `none`), the SLA `status`, and the `rows.push` literal. -/
def summaryRowOf (sla : SLAMap) (api : String) (st : StatsQ) : SummaryRow :=
  let passed := st.total - st.failed
  let errorPct := if st.total ≠ 0 then toFixed2 (st.failed / st.total * 100) else "0.00"
  let hasSLA := (sla api).isSome
  let slaP90 : Option ℚ := (sla api).bind (·.p90)
  let status :=
    if hasSLA ∧ 0 < st.total then
      match slaP90 with
      | some threshold => if threshold < st.p90 then "FAIL" else "PASS"
      | none => "PASS"
    else "N/A"
  { api := api, sla := slaP90,
    min := toFixed2 st.min, max := toFixed2 st.max, avg := toFixed2 st.avg,
    p90 := toFixed2 st.p90, p95 := toFixed2 st.p95, p99 := toFixed2 st.p99,
    total := st.total, passed := passed, failed := st.failed,
    errorPct := errorPct, status := status }

/-- The statistics read by `buildScenarioTable` for one api: raw
scenario-level counters (`|| 0`) and the duration trend fields
(`|| 0` on each, 0 throughout when the trend metric is absent). -/
def scenarioStats (data : MetricsData) (scenario api : String) : StatsQ :=
  let total := ((getValues data (countName api scenario)).bind (·.count)).getD 0
  let failed := ((getValues data (failedName api scenario)).bind (·.count)).getD 0
  match getValues data (durationName api scenario) with
  | some dv =>
    { total := total, failed := failed,
      min := dv.min.getD 0, max := dv.max.getD 0, avg := dv.avg.getD 0,
      p90 := dv.p90.getD 0, p95 := dv.p95.getD 0, p99 := dv.p99.getD 0 }
  | none =>
    { total := total, failed := failed,
      min := 0, max := 0, avg := 0, p90 := 0, p95 := 0, p99 := 0 }

/-- Metric name `count_<api>_<scenario>_phase<i>`. -/
def phaseCountName (api scenario : String) (phaseIndex : ℕ) : String :=
  "count_" ++ api ++ "_" ++ scenario ++ "_phase" ++ toString phaseIndex

/-- Metric name `failed_<api>_<scenario>_phase<i>`. -/
def phaseFailedName (api scenario : String) (phaseIndex : ℕ) : String :=
  "failed_" ++ api ++ "_" ++ scenario ++ "_phase" ++ toString phaseIndex

/-- Metric name `duration_<api>_<scenario>_phase<i>`. -/
def phaseDurationName (api scenario : String) (phaseIndex : ℕ) : String :=
  "duration_" ++ api ++ "_" ++ scenario ++ "_phase" ++ toString phaseIndex

/-- The statistics read by `buildPhaseTable` for one api: identical
to `scenarioStats` but on the `_phase<i>`-suffixed metric names. -/
def phaseStats (data : MetricsData) (scenario : String) (phaseIndex : ℕ)
    (api : String) : StatsQ :=
  let total := ((getValues data (phaseCountName api scenario phaseIndex)).bind (·.count)).getD 0
  let failed := ((getValues data (phaseFailedName api scenario phaseIndex)).bind (·.count)).getD 0
  match getValues data (phaseDurationName api scenario phaseIndex) with
  | some dv =>
    { total := total, failed := failed,
      min := dv.min.getD 0, max := dv.max.getD 0, avg := dv.avg.getD 0,
      p90 := dv.p90.getD 0, p95 := dv.p95.getD 0, p99 := dv.p99.getD 0 }
  | none =>
    { total := total, failed := failed,
      min := 0, max := 0, avg := 0, p90 := 0, p95 := 0, p99 := 0 }

/-- `buildScenarioTable(data, scenario, SLA, apis)`. -/
def buildScenarioTable (data : MetricsData) (scenario : String)
    (sla : SLAMap) (apis : List String) : List SummaryRow :=
  apis.map (fun api => summaryRowOf sla api (scenarioStats data scenario api))

/-- `buildPhaseTable(data, scenario, phaseIndex, SLA, apis)`. -/
def buildPhaseTable (data : MetricsData) (scenario : String) (phaseIndex : ℕ)
    (sla : SLAMap) (apis : List String) : List SummaryRow :=
  apis.map (fun api => summaryRowOf sla api (phaseStats data scenario phaseIndex api))

/-- Foldl step of the overall builder's count accumulation: adds a
counter only when `data.metrics[name]?.values?.count` is truthy
(present and nonzero), mirroring `if (...) total += ...`. -/
def addIfTruthy (t : ℚ) (v : Option ℚ) : ℚ :=
  match v with
  | some c => if c ≠ 0 then t + c else t
  | none => t

/-- Minimum of a list of rationals, `Math.min(...l)` for a nonempty
`l` (the builders only apply it under a nonemptiness guard). -/
def listMinQ : List ℚ → ℚ
  | [] => 0
  | x :: xs => xs.foldl min x

/-- Maximum of a list of rationals, `Math.max(...l)` for nonempty. -/
def listMaxQ : List ℚ → ℚ
  | [] => 0
  | x :: xs => xs.foldl max x

/-- The `allDurations` array of `buildOverallAggregateTable`: the
`values` of every scenario whose duration trend metric is present. -/
def allDurations (data : MetricsData) (api : String)
    (scenarios : List String) : List MVals :=
  scenarios.filterMap (fun scenario => getValues data (durationName api scenario))

/-- The numeric accumulation of `buildOverallAggregateTable` for one
api: counts summed across scenarios (truthiness-guarded `+=`), then,
when `allDurations` is nonempty, min of the defined (`isSome`, the
model of the defined/non-null/finite filter) per-scenario mins, max
of maxes, and the plain `reduce`-mean over `allDurations.length` of
each `|| 0`-defaulted statistic. -/
def overallStats (data : MetricsData) (api : String)
    (scenarios : List String) : StatsQ :=
  let total := scenarios.foldl
    (fun t scenario => addIfTruthy t ((getValues data (countName api scenario)).bind (·.count))) 0
  let failed := scenarios.foldl
    (fun t scenario => addIfTruthy t ((getValues data (failedName api scenario)).bind (·.count))) 0
  let ds := allDurations data api scenarios
  if 0 < ds.length then
    let validMins := (ds.map (·.min)).filterMap id
    let validMaxs := (ds.map (·.max)).filterMap id
    { total := total, failed := failed,
      min := if 0 < validMins.length then listMinQ validMins else 0,
      max := if 0 < validMaxs.length then listMaxQ validMaxs else 0,
      avg := (ds.foldl (fun s d => s + d.avg.getD 0) 0) / ds.length,
      p90 := (ds.foldl (fun s d => s + d.p90.getD 0) 0) / ds.length,
      p95 := (ds.foldl (fun s d => s + d.p95.getD 0) 0) / ds.length,
      p99 := (ds.foldl (fun s d => s + d.p99.getD 0) 0) / ds.length }
  else
    { total := total, failed := failed,
      min := 0, max := 0, avg := 0, p90 := 0, p95 := 0, p99 := 0 }

/-- `buildOverallAggregateTable(data, SLA, apis, scenarios)`. -/
def buildOverallAggregateTable (data : MetricsData) (sla : SLAMap)
    (apis : List String) (scenarios : List String) : List SummaryRow :=
  apis.map (fun api => summaryRowOf sla api (overallStats data api scenarios))

/-! ### Error correlation (`buildApiErrorCorrelation`) -/

/-- A row of `finalRows` before the percentage pass. -/
structure ErrorRowBase where
  api : String
  status : ℕ
  count : ℚ
deriving DecidableEq

/-- A finished error-distribution row. -/
structure ErrorRow where
  api : String
  status : ℕ
  count : ℚ
  pct : String
deriving DecidableEq

/-- `totalCount` for one `(api, status)` pair: the status counter
summed over the scenario-level metric names only (`|| 0`). -/
def scenarioStatusCount (data : MetricsData) (status : ℕ) (api : String)
    (scenarios : List String) : ℚ :=
  scenarios.foldl
    (fun t scenario =>
      t + ((getValues data (statusName status api scenario)).bind (·.count)).getD 0) 0

/-- The `finalRows` array of `buildApiErrorCorrelation` before the
percentage pass: for each api and each tracked status code, a row is
pushed iff the summed count is positive. -/
def errorRowsBase (data : MetricsData) (apis scenarios : List String) :
    List ErrorRowBase :=
  apis.flatMap (fun api =>
    trackedCodes.filterMap (fun status =>
      let totalCount := scenarioStatusCount data status api scenarios
      if 0 < totalCount then some ⟨api, status, totalCount⟩ else none))

/-- `totalErrors`: grand total of all tracked errors across all
apis and codes. -/
def totalTrackedErrors (data : MetricsData) (apis scenarios : List String) : ℚ :=
  (errorRowsBase data apis scenarios).foldl (fun s r => s + r.count) 0

/-- `buildApiErrorCorrelation(data, apis, scenarios)`: the rows with
their percentage of the grand total (JS truthiness guard on
`totalErrors`). -/
def buildApiErrorCorrelation (data : MetricsData)
    (apis scenarios : List String) : List ErrorRow :=
  let finalRows := errorRowsBase data apis scenarios
  let totalErrors := totalTrackedErrors data apis scenarios
  finalRows.map (fun r =>
    ⟨r.api, r.status, r.count,
      if totalErrors ≠ 0 then toFixed2 (r.count / totalErrors * 100) else "0.00"⟩)

/-! ### Metric registry and recorder

`initializeMetrics` allocates k6 `Counter`/`Trend` objects; the run
state they accumulate is modelled functionally: a `MetricSet` is the
current value of one key's counters and distribution, the registry
maps keys to their sets (`none` for unregistered keys, i.e. the
failed `?.` lookups of the source), and `recordMetrics` returns the
updated registry. -/

/-- The counters and distribution for one MetricKey.  `statusCodes`
holds `some` for exactly the tracked codes (the only keys allocated
by `initializeMetrics`). -/
structure MetricSet where
  count : ℕ
  failed : ℕ
  duration : List ℚ
  statusCodes : ℕ → Option ℕ

/-- The whole metrics object: `metrics[scenario][api]` (scenario
level) and `metrics[scenario].phases[phaseIndex][api]` (phase
level); a `none` models any failed `?.` hop in the lookup chain. -/
structure Registry where
  sets : String → String → Option MetricSet
  phaseSets : String → ℕ → String → Option MetricSet

/-- A freshly allocated MetricSet: zero counters, empty distribution,
one zeroed counter per tracked status code. -/
def emptyMetricSet : MetricSet :=
  { count := 0, failed := 0, duration := [],
    statusCodes := fun code => if code ∈ trackedCodes then some 0 else none }

/-- `initializeMetrics(apis, scenarios, scenarioConfig)`: one
scenario-level MetricSet per declared `(scenario, api)` pair, and,
when the scenario's config declares phases, one phase-level
MetricSet per `(scenario, phaseIndex, api)` with `phaseIndex` ranging
over the declared phases. -/
def initializeMetrics (apis scenarios : List String)
    (scenarioConfig : String → Option ScenarioConfig) : Registry :=
  { sets := fun scenario api =>
      if scenario ∈ scenarios ∧ api ∈ apis then some emptyMetricSet else none,
    phaseSets := fun scenario phaseIndex api =>
      if scenario ∈ scenarios ∧ api ∈ apis then
        match (scenarioConfig scenario).bind (·.phases) with
        | some phases => if phaseIndex < phases.length then some emptyMetricSet else none
        | none => none
      else none }

/-- `res.timings` of a k6 response. -/
structure Timings where
  duration : ℚ
deriving DecidableEq

/-- The response fields read by `recordMetrics`. -/
structure Response where
  status : ℕ
  timings : Timings
deriving DecidableEq

/-- The update applied at one granularity by `recordMetrics`:
`count.add(1)`, `duration.add(res.timings.duration)`, and when
`res.status >= 400` also `failed.add(1)` plus, if that code's counter
exists, its increment (the code is textually identical at the
scenario and phase level in the source). -/
def updateSet (ms : MetricSet) (res : Response) : MetricSet :=
  let ms1 := { ms with count := ms.count + 1,
                       duration := ms.duration ++ [res.timings.duration] }
  if 400 ≤ res.status then
    let ms2 := { ms1 with failed := ms1.failed + 1 }
    match ms2.statusCodes res.status with
    | some n =>
      { ms2 with statusCodes := fun code =>
          if code = res.status then some (n + 1) else ms2.statusCodes code }
    | none => ms2
  else ms1

/-- `recordMetrics(metrics, api, scenario, phaseIndex, res)`: update
the scenario-level MetricSet if registered, then, when `phaseIndex`
is not null, the phase-level MetricSet if registered. -/
def recordMetrics (m : Registry) (api scenario : String)
    (phaseIndex : Option ℕ) (res : Response) : Registry :=
  let m1 :=
    match m.sets scenario api with
    | some ms =>
      { m with sets := fun s a =>
          if s = scenario ∧ a = api then some (updateSet ms res) else m.sets s a }
    | none => m
  match phaseIndex with
  | some pi =>
    match m1.phaseSets scenario pi api with
    | some ps =>
      { m1 with phaseSets := fun s i a =>
          if s = scenario ∧ i = pi ∧ a = api then some (updateSet ps res)
          else m1.phaseSets s i a }
    | none => m1
  | none => m1

/-- `record` called once per response in a list, at a fixed key. -/
def recordMany (m : Registry) (api scenario : String)
    (phaseIndex : Option ℕ) (rs : List Response) : Registry :=
  rs.foldl (fun acc res => recordMetrics acc api scenario phaseIndex res) m

/-! ### Claim-side helper definitions -/

/-- The scenario-level request count for an api, defaulted to 0. -/
def countOf (data : MetricsData) (api scenario : String) : ℚ :=
  ((getValues data (countName api scenario)).bind (·.count)).getD 0

/-- The scenario-level failure count for an api, defaulted to 0. -/
def failedOf (data : MetricsData) (api scenario : String) : ℚ :=
  ((getValues data (failedName api scenario)).bind (·.count)).getD 0

/-- A scenario-level duration statistic, defaulted to 0. -/
def statOf (f : MVals → Option ℚ) (data : MetricsData)
    (api scenario : String) : ℚ :=
  ((getValues data (durationName api scenario)).bind f).getD 0

/-- The scenarios whose scenario-level count for `api` is nonzero:
the averaging set of the overall aggregate. -/
def contributingScenarios (data : MetricsData) (api : String)
    (scenarios : List String) : List String :=
  scenarios.filter (fun s => decide (countOf data api s ≠ 0))

/-- All six duration statistics are present on a present trend. -/
def statsComplete (ov : Option MVals) : Bool :=
  ov.all fun v =>
    v.min.isSome && v.max.isSome && v.avg.isSome &&
    v.p90.isSome && v.p95.isSome && v.p99.isSome

/-- Well-formed end-of-test data for `(api, scenarios)`: a scenario
has a duration trend recorded iff it contributed requests to the
api, and a recorded trend carries all six statistics.  This is what
k6 guarantees for the data it hands the summary callback. -/
def WellFormedFor (data : MetricsData) (api : String)
    (scenarios : List String) : Prop :=
  ∀ s ∈ scenarios,
    ((getValues data (durationName api s)).isSome ↔ countOf data api s ≠ 0) ∧
    statsComplete (getValues data (durationName api s)) = true

/-! ### Concrete fixtures for witnesses and counterexamples -/

/-- An empty `values` object. -/
def mvNone : MVals := ⟨none, none, none, none, none, none, none⟩

/-- A counter `values` object with the given count. -/
def mvCount (c : ℚ) : MVals := { mvNone with count := some c }

/-- A full trend `values` object. -/
def mvTrend (mn mx av q90 q95 q99 : ℚ) : MVals :=
  { mvNone with min := some mn, max := some mx, avg := some av,
                p90 := some q90, p95 := some q95, p99 := some q99 }

/-- Fixture: two scenarios hitting `api1` with very different traffic
(1000 vs 10 requests) and p90s 100 vs 300. -/
def wData : MetricsData :=
  ⟨fun name =>
    if name = countName "api1" "s1" then some ⟨some (mvCount 1000)⟩
    else if name = failedName "api1" "s1" then some ⟨some (mvCount 40)⟩
    else if name = durationName "api1" "s1" then some ⟨some (mvTrend 50 150 80 100 110 120)⟩
    else if name = countName "api1" "s2" then some ⟨some (mvCount 10)⟩
    else if name = durationName "api1" "s2" then some ⟨some (mvTrend 70 400 200 300 320 390)⟩
    else none⟩

/-- The scenario list of the `wData` fixture. -/
def wScenarios : List String := ["s1", "s2"]

/-- Fixture: an SLA map whose only entry has no `p90` threshold. -/
def cexSLA : SLAMap :=
  fun api => if api = "api1" then some ⟨none, some 200, none⟩ else none

/-- Fixture: an SLA map whose only entry has `p90 = 150`. -/
def wSLA : SLAMap :=
  fun api => if api = "api1" then some ⟨some 150, none, none⟩ else none

/-- Fixture: `api1` saw 5 requests in `s1`, observed p90 of 100. -/
def cexData : MetricsData :=
  ⟨fun name =>
    if name = countName "api1" "s1" then some ⟨some (mvCount 5)⟩
    else if name = durationName "api1" "s1" then some ⟨some (mvTrend 50 150 80 100 110 120)⟩
    else none⟩

/-- Fixture: a scenario config with one declared phase. -/
def wConfigMap : String → Option ScenarioConfig :=
  fun s => if s = "s1" then some ⟨none, some [⟨"p0", "10s", 5⟩]⟩ else none

/-- Fixture: the registry initialized for `api1`/`s1` with one phase. -/
def wRegistry : Registry := initializeMetrics ["api1"] ["s1"] wConfigMap

/-- A successful response (status 200, 5 ms). -/
def res200 : Response := ⟨200, ⟨5⟩⟩

/-- A failed response (status 500, 7 ms). -/
def res500 : Response := ⟨500, ⟨7⟩⟩

/-- Fixture: a scenario that starts one minute into the test. -/
def lateConfigMap : String → Option ScenarioConfig :=
  fun s => if s = "late" then some ⟨some "1m", some [⟨"p0", "1m", 10⟩]⟩ else none

/-- Fixture: tracked errors for `api1` in `s1`: one 404 and three
500s. -/
def eData : MetricsData :=
  ⟨fun name =>
    if name = statusName 404 "api1" "s1" then some ⟨some (mvCount 1)⟩
    else if name = statusName 500 "api1" "s1" then some ⟨some (mvCount 3)⟩
    else none⟩

/-! ### General helper lemmas -/

/-- Folding `+ f x` over a list adds the sum of the mapped list. -/
theorem foldl_add_eq {α : Type} (f : α → ℚ) :
    ∀ (l : List α) (t : ℚ), l.foldl (fun acc x => acc + f x) t = t + (l.map f).sum := by
  intro l
  induction l with
  | nil => intro t; simp
  | cons a rest ih =>
    intro t
    simp only [List.foldl_cons, List.map_cons, List.sum_cons, ih (t + f a)]
    ring

/-- The truthiness-guarded `+=` of the overall builder adds the
`getD 0` default. -/
theorem addIfTruthy_eq (t : ℚ) (v : Option ℚ) : addIfTruthy t v = t + v.getD 0 := by
  cases v with
  | none => simp [addIfTruthy]
  | some c =>
    by_cases h : c = 0
    · simp [addIfTruthy, h]
    · simp [addIfTruthy, h]

/-- `filterMap` over a list where the function never misses is a
`map` of the defaulted values. -/
theorem filterMap_eq_map_of_isSome {α : Type} (f : α → Option ℚ) :
    ∀ l : List α, (∀ d ∈ l, (f d).isSome) →
      l.filterMap f = l.map (fun d => (f d).getD 0) := by
  intro l
  induction l with
  | nil => intro _; rfl
  | cons a rest ih =>
    intro h
    have ha := h a (List.mem_cons_self a rest)
    cases hfa : f a with
    | none => rw [hfa] at ha; simp at ha
    | some v =>
      simp only [List.filterMap_cons, hfa, List.map_cons]
      rw [ih (fun d hd => h d (List.mem_cons_of_mem a hd))]
      simp [hfa]

/-- A member of a list of positives bounds the sum below. -/
theorem sum_pos_of_mem {α : Type} (cnt : α → ℚ) :
    ∀ (l : List α), (∀ x ∈ l, 0 < cnt x) → l ≠ [] → 0 < (l.map cnt).sum := by
  intro l
  induction l with
  | nil => intro _ h; exact absurd rfl h
  | cons a rest _ =>
    intro h _
    simp only [List.map_cons, List.sum_cons]
    have ha := h a (List.mem_cons_self a rest)
    have hrest : 0 ≤ (rest.map cnt).sum := by
      apply List.sum_nonneg
      intro x hx
      obtain ⟨y, hy, rfl⟩ := List.mem_map.1 hx
      exact le_of_lt (h y (List.mem_cons_of_mem a hy))
    linarith

/-! ### C7: duration parser -/

/-- C7: `parseDuration` sums exactly the `<integer><unit>` tokens the
regex scan can match (units s/m/h), silently ignoring everything
else; `""` and `"0s"` parse to 0; the function is total, so no input
raises an exception. -/
theorem parseDuration_spec :
    parseDuration "1m30s" = 90 ∧
    parseDuration "" = 0 ∧
    parseDuration "0s" = 0 ∧
    parseDuration "5x2m" = 120 ∧
    parseDuration "abc" = 0 ∧
    ∀ s : String, parseDuration s = sumTokens (scanAux none s.data) := by
  refine ⟨by decide, by decide, by decide, by decide, by decide, ?_⟩
  intro s
  by_cases h : s = "" ∨ s = "0s"
  · rcases h with h | h <;> subst h <;> decide
  · simp [parseDuration, h]

/-! ### C9: recording against an unregistered key -/

/-- C9: when neither the scenario-level key nor (for a non-null
phase index) the phase-level key is registered, `recordMetrics` is a
silent no-op: it returns the registry unchanged (and, being a total
function, never throws). -/
theorem recordMetrics_unregistered_noop (m : Registry) (api scenario : String)
    (phaseIndex : Option ℕ) (res : Response)
    (hs : m.sets scenario api = none)
    (hp : ∀ i, phaseIndex = some i → m.phaseSets scenario i api = none) :
    recordMetrics m api scenario phaseIndex res = m := by
  cases phaseIndex with
  | none => simp [recordMetrics, hs]
  | some i => simp [recordMetrics, hs, hp i rfl]

/-- Witness for C9: recording an unknown api against the initialized
registry changes nothing. -/
theorem recordMetrics_unregistered_noop_witness :
    recordMetrics wRegistry "api2" "s1" (some 0) res500 = wRegistry :=
  recordMetrics_unregistered_noop wRegistry "api2" "s1" (some 0) res500
    (by with_unfolding_all rfl)
    (fun i hi => by cases hi; with_unfolding_all rfl)

/-! ### Phase loop characterization -/

/-- `cumDur` of a cons at index 0 is the head's duration. -/
theorem cumDur_cons_zero (p : Phase) (rest : List Phase) :
    cumDur (p :: rest) 0 = ((parseDuration p.duration : ℕ) : ℚ) := by
  simp [cumDur]

/-- `cumDur` of a cons at a successor index peels the head. -/
theorem cumDur_cons_succ (p : Phase) (rest : List Phase) (k : ℕ) :
    cumDur (p :: rest) (k + 1) =
      ((parseDuration p.duration : ℕ) : ℚ) + cumDur rest k := by
  simp [cumDur, List.take_succ_cons]

/-- The loop never returns an index below its starting index. -/
theorem phaseLoop_ge (e : ℚ) :
    ∀ (phases : List Phase) (cum : ℚ) (i j : ℕ),
      phaseLoop e cum i phases = some j → i ≤ j := by
  intro phases
  induction phases with
  | nil => intro cum i j h; simp [phaseLoop] at h
  | cons p rest ih =>
    intro cum i j h
    simp only [phaseLoop] at h
    split at h
    · cases h; exact le_refl i
    · exact le_trans (Nat.le_succ i) (ih _ (i + 1) j h)

/-- Characterization of a successful loop exit: the returned offset
`k` is the first index whose cumulative duration exceeds `e`. -/
theorem phaseLoop_some_iff (e : ℚ) :
    ∀ (phases : List Phase) (cum : ℚ) (i k : ℕ),
      phaseLoop e cum i phases = some (i + k) ↔
        (k < phases.length ∧ e < cum + cumDur phases k ∧
         ∀ l, l < k → cum + cumDur phases l ≤ e) := by
  intro phases
  induction phases with
  | nil =>
    intro cum i k
    simp [phaseLoop]
  | cons p rest ih =>
    intro cum i k
    simp only [phaseLoop]
    by_cases hlt : e < cum + ((parseDuration p.duration : ℕ) : ℚ)
    · rw [if_pos hlt]
      constructor
      · intro h
        have hk : k = 0 := by
          have := Option.some_injective _ h
          omega
        subst hk
        refine ⟨by simp, ?_, ?_⟩
        · rw [cumDur_cons_zero]; exact hlt
        · intro l hl; omega
      · rintro ⟨hklen, hke, hmin⟩
        have hk : k = 0 := by
          by_contra hk0
          have h0 := hmin 0 (Nat.pos_of_ne_zero hk0)
          rw [cumDur_cons_zero] at h0
          linarith
        subst hk
        simp
    · rw [if_neg hlt]
      push_neg at hlt
      cases k with
      | zero =>
        constructor
        · intro h
          have := phaseLoop_ge e rest _ (i + 1) (i + 0) h
          omega
        · rintro ⟨_, hke, _⟩
          rw [cumDur_cons_zero] at hke
          linarith
      | succ k' =>
        have hrw : i + (k' + 1) = (i + 1) + k' := by omega
        rw [hrw, ih (cum + ((parseDuration p.duration : ℕ) : ℚ)) (i + 1) k']
        constructor
        · rintro ⟨hlen, hke, hmin⟩
          refine ⟨by simpa using Nat.succ_lt_succ hlen, ?_, ?_⟩
          · rw [cumDur_cons_succ]; linarith
          · intro l hl
            cases l with
            | zero => rw [cumDur_cons_zero]; linarith
            | succ l' =>
              rw [cumDur_cons_succ]
              have := hmin l' (by omega)
              linarith
        · rintro ⟨hlen, hke, hmin⟩
          refine ⟨by simpa using Nat.lt_of_succ_lt_succ hlen, ?_, ?_⟩
          · rw [cumDur_cons_succ] at hke; linarith
          · intro l hl
            have := hmin (l + 1) (by omega)
            rw [cumDur_cons_succ] at this
            linarith

/-- Characterization of a null loop exit: every cumulative duration
is at most `e`. -/
theorem phaseLoop_none_iff (e : ℚ) :
    ∀ (phases : List Phase) (cum : ℚ) (i : ℕ),
      phaseLoop e cum i phases = none ↔
        ∀ k, k < phases.length → cum + cumDur phases k ≤ e := by
  intro phases
  induction phases with
  | nil => intro cum i; simp [phaseLoop]
  | cons p rest ih =>
    intro cum i
    simp only [phaseLoop]
    by_cases hlt : e < cum + ((parseDuration p.duration : ℕ) : ℚ)
    · rw [if_pos hlt]
      constructor
      · intro h; exact absurd h (Option.some_ne_none i)
      · intro h
        have h0 := h 0 (by simp)
        rw [cumDur_cons_zero] at h0
        exact absurd h0 (by linarith)
    · rw [if_neg hlt]
      push_neg at hlt
      rw [ih (cum + ((parseDuration p.duration : ℕ) : ℚ)) (i + 1)]
      constructor
      · intro h k hk
        cases k with
        | zero => rw [cumDur_cons_zero]; linarith
        | succ k' =>
          rw [cumDur_cons_succ]
          have := h k' (by simpa using Nat.lt_of_succ_lt_succ hk)
          linarith
      · intro h k hk
        have := h (k + 1) (by simpa using Nat.succ_lt_succ hk)
        rw [cumDur_cons_succ] at this
        linarith

/-- Every cumulative prefix duration is at most the total duration. -/
theorem cumDur_le_totalDur (phases : List Phase) (k : ℕ) :
    cumDur phases k ≤ totalDur phases := by
  have hsplit : phases = phases.take (k + 1) ++ phases.drop (k + 1) :=
    (List.take_append_drop (k + 1) phases).symm
  have : totalDur phases =
      cumDur phases k +
        ((phases.drop (k + 1)).map (fun p => ((parseDuration p.duration : ℕ) : ℚ))).sum := by
    rw [totalDur, cumDur]
    conv_lhs => rw [hsplit]
    rw [List.map_append, List.sum_append]
  rw [this]
  have hnn : 0 ≤ ((phases.drop (k + 1)).map
      (fun p => ((parseDuration p.duration : ℕ) : ℚ))).sum := by
    apply List.sum_nonneg
    intro x hx
    obtain ⟨y, _, rfl⟩ := List.mem_map.1 hx
    positivity
  linarith

/-! ### C3: phase resolver -/

/-- C3: the resolver returns null before the scenario starts
(negative `scenarioElapsed`); otherwise it returns exactly the first
phase index whose cumulative duration exceeds `scenarioElapsed`;
it returns null once `scenarioElapsed` reaches the total of all
phase durations; a scenario with zero phases always resolves to
null; and on phases of durations 1m then 2m starting at 0s, elapsed
30s, 90s and 200s resolve to phase 0, phase 1 and null. -/
theorem getCurrentPhase_spec (scenarioName : String)
    (scenarioConfig : String → Option ScenarioConfig) (testStartTime now : ℚ) :
    (∀ config, scenarioConfig scenarioName = some config →
       scenarioElapsed config testStartTime now < 0 →
       getCurrentPhase scenarioName scenarioConfig testStartTime now = none) ∧
    (∀ config phases, scenarioConfig scenarioName = some config →
       config.phases = some phases →
       0 ≤ scenarioElapsed config testStartTime now →
       ∀ i, (getCurrentPhase scenarioName scenarioConfig testStartTime now = some i ↔
         (i < phases.length ∧
          scenarioElapsed config testStartTime now < cumDur phases i ∧
          ∀ j, j < i → cumDur phases j ≤ scenarioElapsed config testStartTime now))) ∧
    (∀ config phases, scenarioConfig scenarioName = some config →
       config.phases = some phases →
       totalDur phases ≤ scenarioElapsed config testStartTime now →
       getCurrentPhase scenarioName scenarioConfig testStartTime now = none) ∧
    (∀ config, scenarioConfig scenarioName = some config →
       config.phases = some [] →
       getCurrentPhase scenarioName scenarioConfig testStartTime now = none) ∧
    (getCurrentPhase "sc" exConfigMap 0 30000 = some 0 ∧
     getCurrentPhase "sc" exConfigMap 0 90000 = some 1 ∧
     getCurrentPhase "sc" exConfigMap 0 200000 = none) := by
  refine ⟨?neg, ?char, ?past, ?empty, ?ex0, ?ex1, ?ex2⟩
  case neg =>
    intro config hconf hneg
    cases hph : config.phases with
    | none => simp [getCurrentPhase, hconf, hph]
    | some phases => simp [getCurrentPhase, hconf, hph, hneg]
  case char =>
    intro config phases hconf hph h0 i
    simp only [getCurrentPhase, hconf, hph]
    rw [if_neg (not_lt.2 h0)]
    have h := phaseLoop_some_iff (scenarioElapsed config testStartTime now) phases 0 0 i
    simp only [Nat.zero_add, zero_add] at h
    exact h
  case past =>
    intro config phases hconf hph hpast
    simp only [getCurrentPhase, hconf, hph]
    have h0 : 0 ≤ scenarioElapsed config testStartTime now := by
      have : (0 : ℚ) ≤ totalDur phases := by
        apply List.sum_nonneg
        intro x hx
        obtain ⟨y, _, rfl⟩ := List.mem_map.1 hx
        positivity
      linarith
    rw [if_neg (not_lt.2 h0)]
    rw [phaseLoop_none_iff]
    intro k hk
    have := cumDur_le_totalDur phases k
    simp only [zero_add]
    linarith
  case empty =>
    intro config hconf hph
    simp only [getCurrentPhase, hconf, hph]
    split
    · rfl
    · rfl
  case ex0 => exact of_decide_eq_true (by with_unfolding_all rfl)
  case ex1 => exact of_decide_eq_true (by with_unfolding_all rfl)
  case ex2 => exact of_decide_eq_true (by with_unfolding_all rfl)

/-- Witness for C3: the characterization applied to the 1m/2m
example at elapsed 90s indeed yields phase 1. -/
theorem getCurrentPhase_spec_witness :
    getCurrentPhase "sc" exConfigMap 0 90000 = some 1 := by
  have h := (getCurrentPhase_spec "sc" exConfigMap 0 90000).2.1
    ⟨some "0s", some exPhases⟩ exPhases (by with_unfolding_all rfl) rfl
    (of_decide_eq_true (by with_unfolding_all rfl)) 1
  apply h.mpr
  refine ⟨by decide, ?_, ?_⟩
  · exact of_decide_eq_true (by with_unfolding_all rfl)
  · intro j hj
    interval_cases j
    exact of_decide_eq_true (by with_unfolding_all rfl)

/-! ### C5: monotonicity of the resolver -/

/-- Elapsed time is monotone in `now`. -/
theorem scenarioElapsed_mono (config : ScenarioConfig) (testStartTime now1 now2 : ℚ)
    (h : now1 ≤ now2) :
    scenarioElapsed config testStartTime now1 ≤ scenarioElapsed config testStartTime now2 := by
  unfold scenarioElapsed
  have : (now1 - testStartTime) / 1000 ≤ (now2 - testStartTime) / 1000 :=
    (div_le_div_iff_of_pos_right (by norm_num)).2 (by linarith)
  linarith

/-- C5 (amended): for a fixed scenario, as elapsed time increases
the resolved phase index never decreases, and once the resolver
returns null at a time when the scenario has already started
(`scenarioElapsed ≥ 0`, i.e. the scenario has ended or has no
phases), it returns null at every later time.  Before the
scenario's start offset the resolver also returns null, but that
early null is not terminal (see the counterexample). -/
theorem getCurrentPhase_monotone (scenarioName : String)
    (scenarioConfig : String → Option ScenarioConfig)
    (testStartTime now1 now2 : ℚ) (hle : now1 ≤ now2) :
    (∀ i j, getCurrentPhase scenarioName scenarioConfig testStartTime now1 = some i →
       getCurrentPhase scenarioName scenarioConfig testStartTime now2 = some j →
       i ≤ j) ∧
    ((∀ config, scenarioConfig scenarioName = some config →
        0 ≤ scenarioElapsed config testStartTime now1) →
      getCurrentPhase scenarioName scenarioConfig testStartTime now1 = none →
      getCurrentPhase scenarioName scenarioConfig testStartTime now2 = none) := by
  cases hconf : scenarioConfig scenarioName with
  | none =>
    constructor
    · intro i j h1 _
      simp [getCurrentPhase, hconf] at h1
    · intro _ _
      simp [getCurrentPhase, hconf]
  | some config =>
    cases hph : config.phases with
    | none =>
      constructor
      · intro i j h1 _
        simp [getCurrentPhase, hconf, hph] at h1
      · intro _ _
        simp [getCurrentPhase, hconf, hph]
    | some phases =>
      have hee : scenarioElapsed config testStartTime now1 ≤
          scenarioElapsed config testStartTime now2 :=
        scenarioElapsed_mono config testStartTime now1 now2 hle
      constructor
      · intro i j h1 h2
        simp only [getCurrentPhase, hconf, hph] at h1 h2
        by_cases hneg1 : scenarioElapsed config testStartTime now1 < 0
        · rw [if_pos hneg1] at h1; cases h1
        · rw [if_neg hneg1] at h1
          by_cases hneg2 : scenarioElapsed config testStartTime now2 < 0
          · rw [if_pos hneg2] at h2; cases h2
          · rw [if_neg hneg2] at h2
            have c1 := (phaseLoop_some_iff (scenarioElapsed config testStartTime now1)
              phases 0 0 i).mp (by simpa using h1)
            have c2 := (phaseLoop_some_iff (scenarioElapsed config testStartTime now2)
              phases 0 0 j).mp (by simpa using h2)
            by_contra hij
            push_neg at hij
            have hmin := c1.2.2 j hij
            have hlt := c2.2.1
            rw [zero_add] at hmin hlt
            linarith
      · intro hstarted h1
        have h0 : 0 ≤ scenarioElapsed config testStartTime now1 :=
          hstarted config rfl
        simp only [getCurrentPhase, hconf, hph] at h1 ⊢
        rw [if_neg (not_lt.2 h0)] at h1
        rw [if_neg (not_lt.2 (le_trans h0 hee))]
        rw [phaseLoop_none_iff] at h1 ⊢
        intro k hk
        have := h1 k hk
        linarith

/-- Counterexample for C5 as stated: for a scenario starting one
minute into the test, the resolver returns null at elapsed 0 ms and
phase 0 at elapsed 70000 ms, so a null result is not terminal. -/
theorem getCurrentPhase_monotone_counterexample :
    getCurrentPhase "late" lateConfigMap 0 0 = none ∧
    getCurrentPhase "late" lateConfigMap 0 70000 = some 0 ∧
    (0 : ℚ) ≤ 70000 :=
  ⟨of_decide_eq_true (by with_unfolding_all rfl),
   of_decide_eq_true (by with_unfolding_all rfl),
   by norm_num⟩

/-- Witness for C5 (amended): on the 1m/2m example the indices at
30s and 90s are ordered. -/
theorem getCurrentPhase_monotone_witness :
    getCurrentPhase "sc" exConfigMap 0 30000 = some 0 ∧
    getCurrentPhase "sc" exConfigMap 0 90000 = some 1 ∧
    (0 : ℕ) ≤ 1 := by
  have h0 : getCurrentPhase "sc" exConfigMap 0 30000 = some 0 :=
    of_decide_eq_true (by with_unfolding_all rfl)
  have h1 : getCurrentPhase "sc" exConfigMap 0 90000 = some 1 :=
    of_decide_eq_true (by with_unfolding_all rfl)
  exact ⟨h0, h1,
    (getCurrentPhase_monotone "sc" exConfigMap 0 30000 90000 (by norm_num)).1 0 1 h0 h1⟩

/-! ### C4 and C10: the metric recorder -/

/-- Field-level description of `updateSet`. -/
theorem updateSet_fields (x : MetricSet) (res : Response) :
    (updateSet x res).count = x.count + 1 ∧
    (updateSet x res).duration = x.duration ++ [res.timings.duration] ∧
    (400 ≤ res.status →
      (updateSet x res).failed = x.failed + 1 ∧
      (∀ n, x.statusCodes res.status = some n →
        (updateSet x res).statusCodes res.status = some (n + 1)) ∧
      (∀ c, c ≠ res.status → (updateSet x res).statusCodes c = x.statusCodes c)) ∧
    (res.status < 400 →
      (updateSet x res).failed = x.failed ∧
      (updateSet x res).statusCodes = x.statusCodes) := by
  by_cases h : 400 ≤ res.status
  · cases hsc : x.statusCodes res.status with
    | none =>
      refine ⟨?_, ?_, fun _ => ⟨?_, ?_, ?_⟩, fun hlt => absurd h (by omega)⟩ <;>
        simp [updateSet, h, hsc]
    | some n =>
      refine ⟨?_, ?_, fun _ => ⟨?_, ?_, ?_⟩, fun hlt => absurd h (by omega)⟩
      · simp [updateSet, h, hsc]
      · simp [updateSet, h, hsc]
      · simp [updateSet, h, hsc]
      · intro n' hn'
        cases hn'
        simp [updateSet, h, hsc]
      · intro c hc
        simp [updateSet, h, hsc, hc]
  · refine ⟨?_, ?_, fun hge => absurd hge h, fun _ => ⟨?_, ?_⟩⟩ <;>
      simp [updateSet, h]

/-- One registered `recordMetrics` call updates both granularities. -/
theorem recordMetrics_registered (m : Registry) (api scenario : String)
    (pi : ℕ) (res : Response) (ms ps : MetricSet)
    (hs : m.sets scenario api = some ms)
    (hp : m.phaseSets scenario pi api = some ps) :
    (recordMetrics m api scenario (some pi) res).sets scenario api = some (updateSet ms res) ∧
    (recordMetrics m api scenario (some pi) res).phaseSets scenario pi api = some (updateSet ps res) := by
  simp only [recordMetrics, hs, hp]
  constructor
  · simp
  · simp

/-- Invariant for repeated failureless recording at a doubly
registered key. -/
theorem recordMany_invariant (api scenario : String) (pi : ℕ) :
    ∀ (rs : List Response) (m : Registry) (ms ps : MetricSet),
      m.sets scenario api = some ms →
      m.phaseSets scenario pi api = some ps →
      (∀ r ∈ rs, r.status < 400) →
      ((recordMany m api scenario (some pi) rs).sets scenario api).map
          (fun s => (s.count, s.failed)) = some (ms.count + rs.length, ms.failed) ∧
      ((recordMany m api scenario (some pi) rs).phaseSets scenario pi api).map
          (fun s => (s.count, s.failed)) = some (ps.count + rs.length, ps.failed) := by
  intro rs
  induction rs with
  | nil =>
    intro m ms ps hs hp _
    simp [recordMany, hs, hp]
  | cons r rest ih =>
    intro m ms ps hs hp hok
    have hr := hok r (List.mem_cons_self r rest)
    have hstep := recordMetrics_registered m api scenario pi r ms ps hs hp
    have hrec := ih (recordMetrics m api scenario (some pi) r)
      (updateSet ms r) (updateSet ps r) hstep.1 hstep.2
      (fun x hx => hok x (List.mem_cons_of_mem r hx))
    have hcm := updateSet_fields ms r
    have hcp := updateSet_fields ps r
    have hu : recordMany m api scenario (some pi) (r :: rest) =
        recordMany (recordMetrics m api scenario (some pi) r) api scenario (some pi) rest := rfl
    rw [hu, hrec.1, hrec.2] at *
    constructor
    · rw [hrec.1, hcm.1, (hcm.2.2.2 hr).1]
      simp [List.length_cons]
      omega
    · rw [hrec.2, hcp.1, (hcp.2.2.2 hr).1]
      simp [List.length_cons]
      omega

/-- C4: a `recordMetrics` call on a key registered at both
granularities adds 1 to both request counters and appends the
duration at both levels; for `statusCode >= 400` it adds exactly 1
to both failure counters and 1 to the matching tracked status-code
counter, leaving every other status-code counter untouched;
consequently N failureless calls from the initialized registry yield
`count = N` and `failed = 0` at both levels. -/
theorem recordMetrics_spec :
    (∀ (m : Registry) (api scenario : String) (pi : ℕ) (res : Response)
        (ms ps : MetricSet),
        m.sets scenario api = some ms →
        m.phaseSets scenario pi api = some ps →
        (recordMetrics m api scenario (some pi) res).sets scenario api =
            some (updateSet ms res) ∧
        (recordMetrics m api scenario (some pi) res).phaseSets scenario pi api =
            some (updateSet ps res)) ∧
    (∀ (x : MetricSet) (res : Response),
        (updateSet x res).count = x.count + 1 ∧
        (updateSet x res).duration = x.duration ++ [res.timings.duration] ∧
        (400 ≤ res.status →
          (updateSet x res).failed = x.failed + 1 ∧
          (∀ n, x.statusCodes res.status = some n →
            (updateSet x res).statusCodes res.status = some (n + 1)) ∧
          (∀ c, c ≠ res.status → (updateSet x res).statusCodes c = x.statusCodes c)) ∧
        (res.status < 400 →
          (updateSet x res).failed = x.failed ∧
          (updateSet x res).statusCodes = x.statusCodes)) ∧
    (∀ (apis scenarios : List String) (cfg : String → Option ScenarioConfig)
        (api scenario : String) (pi : ℕ) (phases : List Phase) (rs : List Response),
        api ∈ apis → scenario ∈ scenarios →
        (cfg scenario).bind (·.phases) = some phases → pi < phases.length →
        (∀ r ∈ rs, r.status < 400) →
        ((recordMany (initializeMetrics apis scenarios cfg) api scenario (some pi) rs).sets
            scenario api).map (fun s => (s.count, s.failed)) = some (rs.length, 0) ∧
        ((recordMany (initializeMetrics apis scenarios cfg) api scenario (some pi) rs).phaseSets
            scenario pi api).map (fun s => (s.count, s.failed)) = some (rs.length, 0)) := by
  refine ⟨recordMetrics_registered, updateSet_fields, ?_⟩
  intro apis scenarios cfg api scenario pi phases rs ha hsc hph hpi hok
  have hs : (initializeMetrics apis scenarios cfg).sets scenario api = some emptyMetricSet := by
    simp [initializeMetrics, hsc, ha]
  have hp : (initializeMetrics apis scenarios cfg).phaseSets scenario pi api =
      some emptyMetricSet := by
    simp [initializeMetrics, hsc, ha, hph, hpi]
  have h := recordMany_invariant api scenario pi rs
    (initializeMetrics apis scenarios cfg) emptyMetricSet emptyMetricSet hs hp hok
  simpa [emptyMetricSet] using h

/-- Witness for C4: two successful recordings on the initialized
registry yield count 2 and no failures at both levels. -/
theorem recordMetrics_spec_witness :
    ((recordMany wRegistry "api1" "s1" (some 0) [res200, res200]).sets "s1" "api1").map
        (fun s => (s.count, s.failed)) = some (2, 0) ∧
    ((recordMany wRegistry "api1" "s1" (some 0) [res200, res200]).phaseSets "s1" 0 "api1").map
        (fun s => (s.count, s.failed)) = some (2, 0) := by
  have h := recordMetrics_spec.2.2 ["api1"] ["s1"] wConfigMap "api1" "s1" 0
    [⟨"p0", "10s", 5⟩] [res200, res200]
    (by decide) (by decide) (by with_unfolding_all rfl) (by decide) (by decide)
  simpa [wRegistry] using h

/-- C10: when the scenario-level key is registered but the phase
index has no registered phase-level MetricSet, the scenario-level
update is still applied in full (count, duration, and the
failure/status counters via `updateSet`) while the phase-level
state is completely unchanged, and the call returns normally. -/
theorem recordMetrics_partial_registration (m : Registry) (api scenario : String)
    (pi : ℕ) (res : Response) (ms : MetricSet)
    (hs : m.sets scenario api = some ms)
    (hp : m.phaseSets scenario pi api = none) :
    (recordMetrics m api scenario (some pi) res).sets scenario api = some (updateSet ms res) ∧
    (recordMetrics m api scenario (some pi) res).phaseSets = m.phaseSets ∧
    (updateSet ms res).count = ms.count + 1 ∧
    (updateSet ms res).duration = ms.duration ++ [res.timings.duration] ∧
    (400 ≤ res.status → (updateSet ms res).failed = ms.failed + 1) ∧
    (res.status < 400 → (updateSet ms res).failed = ms.failed) := by
  have hf := updateSet_fields ms res
  refine ⟨?_, ?_, hf.1, hf.2.1,
    fun hge => (hf.2.2.1 hge).1, fun hlt => (hf.2.2.2 hlt).1⟩
  · simp only [recordMetrics, hs, hp]
    simp
  · simp only [recordMetrics, hs, hp]

/-- Witness for C10: recording against phase index 5 (only phase 0
is declared) still updates the scenario level and leaves the phase
level untouched. -/
theorem recordMetrics_partial_registration_witness :
    ((recordMetrics wRegistry "api1" "s1" (some 5) res500).sets "s1" "api1").map
        (fun s => (s.count, s.failed)) = some (1, 1) ∧
    (recordMetrics wRegistry "api1" "s1" (some 5) res500).phaseSets "s1" 5 "api1" = none := by
  have h := recordMetrics_partial_registration wRegistry "api1" "s1" 5 res500
    emptyMetricSet (by with_unfolding_all rfl) (by with_unfolding_all rfl)
  constructor
  · rw [h.1]
    simp only [Option.map_some']
    rw [h.2.2.1, h.2.2.2.2.1 (by decide)]
    with_unfolding_all rfl
  · rw [h.2.1]
    with_unfolding_all rfl

/-! ### C2 and C8: SummaryRow status, passed and errorPct -/

/-- The `api` field of an assembled row. -/
theorem summaryRowOf_api (sla : SLAMap) (api : String) (st : StatsQ) :
    (summaryRowOf sla api st).api = api := rfl

/-- Status characterization of an assembled row. -/
theorem summaryRowOf_status (sla : SLAMap) (api : String) (st : StatsQ) :
    ((summaryRowOf sla api st).status = "FAIL" ↔
      (0 < st.total ∧ ∃ t, (sla api).bind (·.p90) = some t ∧ t < st.p90)) ∧
    ((summaryRowOf sla api st).status = "PASS" ↔
      ((sla api).isSome ∧ 0 < st.total ∧
       ∀ t, (sla api).bind (·.p90) = some t → st.p90 ≤ t)) ∧
    ((summaryRowOf sla api st).status = "N/A" ↔
      (sla api = none ∨ ¬ 0 < st.total)) := by
  by_cases htot : 0 < st.total
  · cases hsla : sla api with
    | none =>
      refine ⟨?_, ?_, ?_⟩ <;> simp [summaryRowOf, hsla]
    | some entry =>
      cases hp90 : entry.p90 with
      | none =>
        refine ⟨?_, ?_, ?_⟩ <;> simp [summaryRowOf, hsla, hp90, htot]
      | some threshold =>
        by_cases hex : threshold < st.p90
        · refine ⟨?_, ?_, ?_⟩ <;>
            simp [summaryRowOf, hsla, hp90, htot, hex, not_le.2 hex]
        · refine ⟨?_, ?_, ?_⟩ <;>
            simp [summaryRowOf, hsla, hp90, htot, hex, not_lt.1 hex]
  · cases hsla : sla api with
    | none =>
      refine ⟨?_, ?_, ?_⟩ <;> simp [summaryRowOf, hsla, htot]
    | some entry =>
      refine ⟨?_, ?_, ?_⟩ <;> simp [summaryRowOf, hsla, htot]

/-- C2 (amended): for every row of `buildScenarioTable`,
`buildPhaseTable` or `buildOverallAggregateTable`: status is "FAIL"
iff an SLA p90 threshold exists for the api, total > 0, and the
observed p90 exceeds it; status is "PASS" iff an SLA entry exists
for the api (whether or not it carries a p90 threshold), total > 0,
and no present p90 threshold is exceeded; status is "N/A" iff no SLA
entry exists for the api or total is not positive. -/
theorem summary_status_amended :
    (∀ (data : MetricsData) (scenario : String) (sla : SLAMap) (apis : List String),
      ∀ row ∈ buildScenarioTable data scenario sla apis,
        (row.status = "FAIL" ↔
          (0 < (scenarioStats data scenario row.api).total ∧
           ∃ t, (sla row.api).bind (·.p90) = some t ∧
             t < (scenarioStats data scenario row.api).p90)) ∧
        (row.status = "PASS" ↔
          ((sla row.api).isSome ∧ 0 < (scenarioStats data scenario row.api).total ∧
           ∀ t, (sla row.api).bind (·.p90) = some t →
             (scenarioStats data scenario row.api).p90 ≤ t)) ∧
        (row.status = "N/A" ↔
          (sla row.api = none ∨ ¬ 0 < (scenarioStats data scenario row.api).total))) ∧
    (∀ (data : MetricsData) (scenario : String) (phaseIndex : ℕ) (sla : SLAMap)
        (apis : List String),
      ∀ row ∈ buildPhaseTable data scenario phaseIndex sla apis,
        (row.status = "FAIL" ↔
          (0 < (phaseStats data scenario phaseIndex row.api).total ∧
           ∃ t, (sla row.api).bind (·.p90) = some t ∧
             t < (phaseStats data scenario phaseIndex row.api).p90)) ∧
        (row.status = "PASS" ↔
          ((sla row.api).isSome ∧
           0 < (phaseStats data scenario phaseIndex row.api).total ∧
           ∀ t, (sla row.api).bind (·.p90) = some t →
             (phaseStats data scenario phaseIndex row.api).p90 ≤ t)) ∧
        (row.status = "N/A" ↔
          (sla row.api = none ∨
           ¬ 0 < (phaseStats data scenario phaseIndex row.api).total))) ∧
    (∀ (data : MetricsData) (sla : SLAMap) (apis scenarios : List String),
      ∀ row ∈ buildOverallAggregateTable data sla apis scenarios,
        (row.status = "FAIL" ↔
          (0 < (overallStats data row.api scenarios).total ∧
           ∃ t, (sla row.api).bind (·.p90) = some t ∧
             t < (overallStats data row.api scenarios).p90)) ∧
        (row.status = "PASS" ↔
          ((sla row.api).isSome ∧ 0 < (overallStats data row.api scenarios).total ∧
           ∀ t, (sla row.api).bind (·.p90) = some t →
             (overallStats data row.api scenarios).p90 ≤ t)) ∧
        (row.status = "N/A" ↔
          (sla row.api = none ∨ ¬ 0 < (overallStats data row.api scenarios).total))) := by
  refine ⟨?_, ?_, ?_⟩
  · intro data scenario sla apis row hrow
    obtain ⟨api, _, rfl⟩ := List.mem_map.1 hrow
    rw [summaryRowOf_api]
    exact summaryRowOf_status sla api (scenarioStats data scenario api)
  · intro data scenario phaseIndex sla apis row hrow
    obtain ⟨api, _, rfl⟩ := List.mem_map.1 hrow
    rw [summaryRowOf_api]
    exact summaryRowOf_status sla api (phaseStats data scenario phaseIndex api)
  · intro data sla apis scenarios row hrow
    obtain ⟨api, _, rfl⟩ := List.mem_map.1 hrow
    rw [summaryRowOf_api]
    exact summaryRowOf_status sla api (overallStats data api scenarios)

/-- Counterexample for C2 as stated: an SLA entry that exists but
carries no p90 threshold yields status "PASS" (not "N/A") for an api
with traffic. -/
theorem summary_status_counterexample :
    (buildScenarioTable cexData "s1" cexSLA ["api1"]).map (fun r => r.status) = ["PASS"] ∧
    (buildScenarioTable cexData "s1" cexSLA ["api1"]).map (fun r => r.total) = [5] ∧
    (cexSLA "api1").isSome = true ∧
    (cexSLA "api1").bind (fun e => e.p90) = none ∧
    ("PASS" : String) ≠ "N/A" :=
  ⟨of_decide_eq_true (by with_unfolding_all rfl),
   of_decide_eq_true (by with_unfolding_all rfl),
   rfl, rfl, by decide⟩

/-- Witness for C2 (amended): on the counterexample input (SLA entry
present, no p90 threshold, total 5 > 0) the amended characterization
yields "PASS". -/
theorem summary_status_amended_witness :
    (summaryRowOf cexSLA "api1" (scenarioStats cexData "s1" "api1")).status = "PASS" := by
  have hmem : summaryRowOf cexSLA "api1" (scenarioStats cexData "s1" "api1") ∈
      buildScenarioTable cexData "s1" cexSLA ["api1"] := by
    simp [buildScenarioTable]
  have h := (summary_status_amended.1 cexData "s1" cexSLA ["api1"] _ hmem).2.1
  apply h.mpr
  refine ⟨rfl, of_decide_eq_true (by with_unfolding_all rfl), ?_⟩
  intro t ht
  rw [show (cexSLA (summaryRowOf cexSLA "api1"
    (scenarioStats cexData "s1" "api1")).api).bind (·.p90) = none from rfl] at ht
  cases ht

/-- Passed/errorPct behaviour of an assembled row. -/
theorem summaryRowOf_passed_errorPct (sla : SLAMap) (api : String) (st : StatsQ) :
    (summaryRowOf sla api st).passed =
      (summaryRowOf sla api st).total - (summaryRowOf sla api st).failed ∧
    ((summaryRowOf sla api st).total = 0 →
      (summaryRowOf sla api st).errorPct = "0.00") ∧
    (0 < (summaryRowOf sla api st).total →
      (summaryRowOf sla api st).errorPct =
        toFixed2 ((summaryRowOf sla api st).failed / (summaryRowOf sla api st).total * 100)) := by
  refine ⟨rfl, ?_, ?_⟩
  · intro h0
    simp only [summaryRowOf] at h0 ⊢
    rw [if_neg (by simpa using h0)]
  · intro hpos
    simp only [summaryRowOf] at hpos ⊢
    rw [if_pos (by simpa using ne_of_gt hpos)]

/-- C8: every row of every table builder satisfies
`passed = total - failed`, and `errorPct` is the two-decimal
rendering of `failed/total*100` when total > 0, or the literal
string "0.00" when total = 0 — never NaN and never an exception
(the builders are total functions over exact rationals). -/
theorem summary_passed_errorPct_spec :
    (∀ (data : MetricsData) (scenario : String) (sla : SLAMap) (apis : List String),
      ∀ row ∈ buildScenarioTable data scenario sla apis,
        row.passed = row.total - row.failed ∧
        (row.total = 0 → row.errorPct = "0.00") ∧
        (0 < row.total → row.errorPct = toFixed2 (row.failed / row.total * 100))) ∧
    (∀ (data : MetricsData) (scenario : String) (phaseIndex : ℕ) (sla : SLAMap)
        (apis : List String),
      ∀ row ∈ buildPhaseTable data scenario phaseIndex sla apis,
        row.passed = row.total - row.failed ∧
        (row.total = 0 → row.errorPct = "0.00") ∧
        (0 < row.total → row.errorPct = toFixed2 (row.failed / row.total * 100))) ∧
    (∀ (data : MetricsData) (sla : SLAMap) (apis scenarios : List String),
      ∀ row ∈ buildOverallAggregateTable data sla apis scenarios,
        row.passed = row.total - row.failed ∧
        (row.total = 0 → row.errorPct = "0.00") ∧
        (0 < row.total → row.errorPct = toFixed2 (row.failed / row.total * 100))) := by
  refine ⟨?_, ?_, ?_⟩
  · intro data scenario sla apis row hrow
    obtain ⟨api, _, rfl⟩ := List.mem_map.1 hrow
    exact summaryRowOf_passed_errorPct sla api (scenarioStats data scenario api)
  · intro data scenario phaseIndex sla apis row hrow
    obtain ⟨api, _, rfl⟩ := List.mem_map.1 hrow
    exact summaryRowOf_passed_errorPct sla api (phaseStats data scenario phaseIndex api)
  · intro data sla apis scenarios row hrow
    obtain ⟨api, _, rfl⟩ := List.mem_map.1 hrow
    exact summaryRowOf_passed_errorPct sla api (overallStats data api scenarios)

set_option maxRecDepth 8192 in
/-- Witness for C8: on the `wData` fixture (total 1000, failed 40)
the row shows passed 960 and errorPct "4.00"; on a trafficless api
the errorPct is the literal "0.00". -/
theorem summary_passed_errorPct_spec_witness :
    (summaryRowOf wSLA "api1" (scenarioStats wData "s1" "api1")).passed = 960 ∧
    (summaryRowOf wSLA "api1" (scenarioStats wData "s1" "api1")).errorPct = "4.00" ∧
    (summaryRowOf wSLA "api2" (scenarioStats wData "s1" "api2")).errorPct = "0.00" := by
  have hmem : summaryRowOf wSLA "api1" (scenarioStats wData "s1" "api1") ∈
      buildScenarioTable wData "s1" wSLA ["api1"] := by
    simp [buildScenarioTable]
  have h := summary_passed_errorPct_spec.1 wData "s1" wSLA ["api1"] _ hmem
  have hmem2 : summaryRowOf wSLA "api2" (scenarioStats wData "s1" "api2") ∈
      buildScenarioTable wData "s1" wSLA ["api2"] := by
    simp [buildScenarioTable]
  have h2 := summary_passed_errorPct_spec.1 wData "s1" wSLA ["api2"] _ hmem2
  refine ⟨?_, ?_, ?_⟩
  · rw [h.1]
    exact of_decide_eq_true (by with_unfolding_all rfl)
  · rw [h.2.2 (of_decide_eq_true (by with_unfolding_all rfl))]
    exact of_decide_eq_true (by with_unfolding_all rfl)
  · exact h2.2.1 (of_decide_eq_true (by with_unfolding_all rfl))

/-! ### C1: the overall aggregate -/

/-- The overall total is the plain sum of the scenario-level counts
(the truthiness guard of `+=` cannot change the sum). -/
theorem overallStats_total (data : MetricsData) (api : String) (scenarios : List String) :
    (overallStats data api scenarios).total =
      (scenarios.map (fun s => countOf data api s)).sum := by
  have hfold : scenarios.foldl
      (fun t scenario =>
        addIfTruthy t ((getValues data (countName api scenario)).bind (·.count))) 0
      = (scenarios.map (fun s => countOf data api s)).sum := by
    simp only [addIfTruthy_eq]
    rw [foldl_add_eq (fun s => ((getValues data (countName api s)).bind (·.count)).getD 0)
      scenarios 0]
    simp [countOf]
  simp only [overallStats]
  split <;> simpa using hfold

/-- Same for the overall failed count. -/
theorem overallStats_failed (data : MetricsData) (api : String) (scenarios : List String) :
    (overallStats data api scenarios).failed =
      (scenarios.map (fun s => failedOf data api s)).sum := by
  have hfold : scenarios.foldl
      (fun t scenario =>
        addIfTruthy t ((getValues data (failedName api scenario)).bind (·.count))) 0
      = (scenarios.map (fun s => failedOf data api s)).sum := by
    simp only [addIfTruthy_eq]
    rw [foldl_add_eq (fun s => ((getValues data (failedName api s)).bind (·.count)).getD 0)
      scenarios 0]
    simp [failedOf]
  simp only [overallStats]
  split <;> simpa using hfold

/-- Under well-formed data, the defaulted statistics of the pushed
duration entries are exactly the per-scenario statistics of the
contributing scenarios, in order. -/
theorem allDurations_stat_eq (data : MetricsData) (api : String) (f : MVals → Option ℚ) :
    ∀ scenarios : List String, WellFormedFor data api scenarios →
      (allDurations data api scenarios).map (fun d => (f d).getD 0) =
        (contributingScenarios data api scenarios).map (statOf f data api) := by
  intro scenarios
  induction scenarios with
  | nil => intro _; rfl
  | cons s rest ih =>
    intro hwf
    have hs := hwf s (List.mem_cons_self s rest)
    have hrest : WellFormedFor data api rest :=
      fun x hx => hwf x (List.mem_cons_of_mem s hx)
    cases hv : getValues data (durationName api s) with
    | none =>
      have h1 := hs.1
      rw [hv] at h1
      simp only [Option.isSome_none, Bool.false_eq_true, false_iff, not_not] at h1
      have htail := ih hrest
      simp only [allDurations, contributingScenarios, List.filterMap_cons,
        List.filter_cons, hv, h1] at htail ⊢
      simpa using htail
    | some v =>
      have h1 : countOf data api s ≠ 0 := by
        apply hs.1.mp
        rw [hv]
        simp
      have htail := ih hrest
      simp only [allDurations, contributingScenarios, List.filterMap_cons, hv,
        List.filter_cons] at htail ⊢
      rw [if_pos (by simpa using h1)]
      simp only [List.map_cons]
      refine List.cons_eq_cons.mpr ⟨?_, htail⟩
      simp [statOf, hv]

/-- Under well-formed data every pushed duration entry carries all
six statistics. -/
theorem allDurations_isSome (data : MetricsData) (api : String)
    (scenarios : List String) (hwf : WellFormedFor data api scenarios) :
    ∀ d ∈ allDurations data api scenarios,
      d.min.isSome ∧ d.max.isSome ∧ d.avg.isSome ∧
      d.p90.isSome ∧ d.p95.isSome ∧ d.p99.isSome := by
  intro d hd
  obtain ⟨s, hsmem, hv⟩ := List.mem_filterMap.1 hd
  have h2 := (hwf s hsmem).2
  rw [hv] at h2
  simp [statsComplete, Option.all] at h2
  tauto

/-- Under well-formed data the pushed list and the contributing
scenarios have the same length. -/
theorem allDurations_length_eq (data : MetricsData) (api : String)
    (scenarios : List String) (hwf : WellFormedFor data api scenarios) :
    (allDurations data api scenarios).length =
      (contributingScenarios data api scenarios).length := by
  have h := congrArg List.length (allDurations_stat_eq data api (·.avg) scenarios hwf)
  simpa using h

/-- The mean computed by the overall builder is the unweighted mean
over contributing scenarios. -/
theorem overall_mean_eq (data : MetricsData) (api : String)
    (scenarios : List String) (hwf : WellFormedFor data api scenarios)
    (f : MVals → Option ℚ) :
    ((allDurations data api scenarios).foldl (fun s d => s + (f d).getD 0) 0)
        / ((allDurations data api scenarios).length : ℚ) =
      ((contributingScenarios data api scenarios).map (statOf f data api)).sum
        / ((contributingScenarios data api scenarios).length : ℚ) := by
  rw [foldl_add_eq (fun d => (f d).getD 0) (allDurations data api scenarios) 0]
  rw [allDurations_stat_eq data api f scenarios hwf]
  rw [allDurations_length_eq data api scenarios hwf]
  simp

/-- C1: the overall aggregate for an api sums the scenario-level
request and failure counts across all scenarios; under well-formed
data its min/max are the min of the contributing scenarios' mins and
the max of their maxes, and its avg/p90/p95/p99 are the unweighted
arithmetic means of the corresponding per-scenario statistics over
the contributing scenarios only (scenarios contributing zero
requests to the api are excluded from the averaging set); and the
table is one such row per api. -/
theorem buildOverallAggregateTable_spec (data : MetricsData) (api : String)
    (scenarios : List String) :
    ((overallStats data api scenarios).total =
        (scenarios.map (fun s => countOf data api s)).sum ∧
     (overallStats data api scenarios).failed =
        (scenarios.map (fun s => failedOf data api s)).sum) ∧
    (WellFormedFor data api scenarios →
      (contributingScenarios data api scenarios ≠ [] →
        (overallStats data api scenarios).min =
          listMinQ ((contributingScenarios data api scenarios).map
            (statOf (·.min) data api)) ∧
        (overallStats data api scenarios).max =
          listMaxQ ((contributingScenarios data api scenarios).map
            (statOf (·.max) data api))) ∧
      (overallStats data api scenarios).avg =
        ((contributingScenarios data api scenarios).map (statOf (·.avg) data api)).sum
          / ((contributingScenarios data api scenarios).length : ℚ) ∧
      (overallStats data api scenarios).p90 =
        ((contributingScenarios data api scenarios).map (statOf (·.p90) data api)).sum
          / ((contributingScenarios data api scenarios).length : ℚ) ∧
      (overallStats data api scenarios).p95 =
        ((contributingScenarios data api scenarios).map (statOf (·.p95) data api)).sum
          / ((contributingScenarios data api scenarios).length : ℚ) ∧
      (overallStats data api scenarios).p99 =
        ((contributingScenarios data api scenarios).map (statOf (·.p99) data api)).sum
          / ((contributingScenarios data api scenarios).length : ℚ)) ∧
    (∀ (sla : SLAMap) (apis : List String),
      buildOverallAggregateTable data sla apis scenarios =
        apis.map (fun a => summaryRowOf sla a (overallStats data a scenarios))) := by
  refine ⟨⟨overallStats_total data api scenarios, overallStats_failed data api scenarios⟩,
    ?_, fun _ _ => rfl⟩
  intro hwf
  by_cases hds : 0 < (allDurations data api scenarios).length
  · have hsome := allDurations_isSome data api scenarios hwf
    have hmins : ((allDurations data api scenarios).map (fun d => d.min)).filterMap id =
        (contributingScenarios data api scenarios).map (statOf (·.min) data api) := by
      rw [List.filterMap_map]
      have : (allDurations data api scenarios).filterMap (fun d => d.min) =
          (allDurations data api scenarios).map (fun d => d.min.getD 0) := by
        apply filterMap_eq_map_of_isSome
        intro d hd
        exact (hsome d hd).1
      simpa [Function.comp] using
        this.trans (allDurations_stat_eq data api (·.min) scenarios hwf)
    have hmaxs : ((allDurations data api scenarios).map (fun d => d.max)).filterMap id =
        (contributingScenarios data api scenarios).map (statOf (·.max) data api) := by
      rw [List.filterMap_map]
      have : (allDurations data api scenarios).filterMap (fun d => d.max) =
          (allDurations data api scenarios).map (fun d => d.max.getD 0) := by
        apply filterMap_eq_map_of_isSome
        intro d hd
        exact (hsome d hd).2.1
      simpa [Function.comp] using
        this.trans (allDurations_stat_eq data api (·.max) scenarios hwf)
    have hlen := allDurations_length_eq data api scenarios hwf
    refine ⟨?_, ?_, ?_, ?_, ?_⟩
    · intro hC
      have hClen : 0 < ((contributingScenarios data api scenarios).map
          (statOf (·.min) data api)).length := by
        simpa using List.length_pos.2 hC
      have hClen' : 0 < ((contributingScenarios data api scenarios).map
          (statOf (·.max) data api)).length := by
        simpa using List.length_pos.2 hC
      constructor
      · simp only [overallStats]
        rw [if_pos hds]
        simp only [hmins]
        rw [if_pos (by simpa using hClen)]
      · simp only [overallStats]
        rw [if_pos hds]
        simp only [hmaxs]
        rw [if_pos (by simpa using hClen')]
    · simp only [overallStats]
      rw [if_pos hds]
      exact overall_mean_eq data api scenarios hwf (·.avg)
    · simp only [overallStats]
      rw [if_pos hds]
      exact overall_mean_eq data api scenarios hwf (·.p90)
    · simp only [overallStats]
      rw [if_pos hds]
      exact overall_mean_eq data api scenarios hwf (·.p95)
    · simp only [overallStats]
      rw [if_pos hds]
      exact overall_mean_eq data api scenarios hwf (·.p99)
  · have hC : contributingScenarios data api scenarios = [] := by
      have hlen := allDurations_length_eq data api scenarios hwf
      have : (allDurations data api scenarios).length = 0 := by omega
      rw [this] at hlen
      exact List.length_eq_zero.1 hlen.symm
    refine ⟨fun hne => absurd hC hne, ?_, ?_, ?_, ?_⟩ <;>
      · simp only [overallStats, hC]
        rw [if_neg hds]
        simp

set_option maxRecDepth 8192 in
/-- Witness for C1: on the fixture with 1000 requests at p90 100 in
one scenario and 10 requests at p90 300 in the other, the overall
p90 is exactly 200 (the unweighted mean, regardless of traffic) and
the overall total is 1010. -/
theorem buildOverallAggregateTable_spec_witness :
    WellFormedFor wData "api1" wScenarios ∧
    (overallStats wData "api1" wScenarios).p90 = 200 ∧
    (overallStats wData "api1" wScenarios).total = 1010 := by
  have hwf : WellFormedFor wData "api1" wScenarios := by
    unfold WellFormedFor
    exact of_decide_eq_true (by with_unfolding_all rfl)
  have h := buildOverallAggregateTable_spec wData "api1" wScenarios
  refine ⟨hwf, ?_, ?_⟩
  · rw [(h.2.1 hwf).2.2.1]
    exact of_decide_eq_true (by with_unfolding_all rfl)
  · rw [h.1.1]
    exact of_decide_eq_true (by with_unfolding_all rfl)

/-! ### C6: error distribution -/

/-- Generic congruence for `filterMap` restricted to members. -/
theorem filterMap_congr_mem {α β : Type} (f g : α → Option β) :
    ∀ l : List α, (∀ a ∈ l, f a = g a) → l.filterMap f = l.filterMap g := by
  intro l
  induction l with
  | nil => intro _; rfl
  | cons a rest ih =>
    intro h
    simp only [List.filterMap_cons, h a (List.mem_cons_self a rest),
      ih fun x hx => h x (List.mem_cons_of_mem a hx)]

/-- Every base error row records the scenario-level sum for its
`(api, status)` pair, and is only pushed when positive. -/
theorem errorRowsBase_mem (data : MetricsData) (apis scenarios : List String) :
    ∀ r ∈ errorRowsBase data apis scenarios,
      r.count = scenarioStatusCount data r.status r.api scenarios ∧ 0 < r.count := by
  intro r hr
  simp only [errorRowsBase, List.mem_flatMap, List.mem_filterMap] at hr
  obtain ⟨api, _, code, _, heq⟩ := hr
  by_cases h : 0 < scenarioStatusCount data code api scenarios
  · rw [if_pos h] at heq
    cases heq
    exact ⟨rfl, h⟩
  · rw [if_neg h] at heq
    cases heq

/-- If any base row exists, the grand total of tracked errors is
positive. -/
theorem totalTrackedErrors_pos (data : MetricsData) (apis scenarios : List String)
    (r : ErrorRowBase) (hr : r ∈ errorRowsBase data apis scenarios) :
    0 < totalTrackedErrors data apis scenarios := by
  have hall := errorRowsBase_mem data apis scenarios
  rw [totalTrackedErrors,
    foldl_add_eq (fun x : ErrorRowBase => x.count) (errorRowsBase data apis scenarios) 0]
  have hpos := sum_pos_of_mem (fun x : ErrorRowBase => x.count)
    (errorRowsBase data apis scenarios)
    (fun x hx => (hall x hx).2) (List.ne_nil_of_mem hr)
  linarith

/-- The scenario-level status sum only depends on the status metrics
it names. -/
theorem scenarioStatusCount_congr (data data' : MetricsData) (code : ℕ) (api : String)
    (scenarios : List String)
    (h : ∀ s ∈ scenarios,
      data'.metrics (statusName code api s) = data.metrics (statusName code api s)) :
    scenarioStatusCount data' code api scenarios =
      scenarioStatusCount data code api scenarios := by
  rw [scenarioStatusCount, scenarioStatusCount,
    foldl_add_eq (fun s => ((getValues data' (statusName code api s)).bind (·.count)).getD 0)
      scenarios 0,
    foldl_add_eq (fun s => ((getValues data (statusName code api s)).bind (·.count)).getD 0)
      scenarios 0]
  congr 1
  congr 1
  apply List.map_congr_left
  intro s hs
  rw [getValues, getValues, h s hs]

/-- The base rows only depend on the scenario-level status metrics. -/
theorem errorRowsBase_congr (data data' : MetricsData) :
    ∀ (apis : List String) (scenarios : List String),
      (∀ api ∈ apis, ∀ code ∈ trackedCodes, ∀ s ∈ scenarios,
        data'.metrics (statusName code api s) = data.metrics (statusName code api s)) →
      errorRowsBase data' apis scenarios = errorRowsBase data apis scenarios := by
  intro apis
  induction apis with
  | nil => intro scenarios _; rfl
  | cons api rest ih =>
    intro scenarios h
    simp only [errorRowsBase, List.flatMap_cons]
    have hrest := ih scenarios fun a ha code hc s hs =>
      h a (List.mem_cons_of_mem api ha) code hc s hs
    simp only [errorRowsBase] at hrest
    rw [hrest]
    congr 1
    apply filterMap_congr_mem
    intro code hcode
    rw [scenarioStatusCount_congr data data' code api scenarios
      fun s hs => h api (List.mem_cons_self api rest) code hcode s hs]

/-- C6: each error-distribution row's count is the sum of that
`(api, tracked status code)` counter over the scenario-level metric
names of all scenarios; its pct is its share of the grand total of
all tracked errors; and the whole table depends only on the
scenario-level status metrics, so phase-level counters are never
added (no double counting). -/
theorem buildApiErrorCorrelation_spec (data : MetricsData) (apis scenarios : List String) :
    (∀ r ∈ buildApiErrorCorrelation data apis scenarios,
       r.count = scenarioStatusCount data r.status r.api scenarios ∧
       0 < r.count ∧
       r.pct = toFixed2 (r.count / totalTrackedErrors data apis scenarios * 100)) ∧
    (totalTrackedErrors data apis scenarios =
       ((errorRowsBase data apis scenarios).map (fun r => r.count)).sum) ∧
    (∀ data' : MetricsData,
       (∀ api ∈ apis, ∀ code ∈ trackedCodes, ∀ s ∈ scenarios,
         data'.metrics (statusName code api s) = data.metrics (statusName code api s)) →
       buildApiErrorCorrelation data' apis scenarios =
         buildApiErrorCorrelation data apis scenarios) := by
  refine ⟨?_, ?_, ?_⟩
  · intro r hr
    simp only [buildApiErrorCorrelation] at hr
    obtain ⟨r0, hr0, rfl⟩ := List.mem_map.1 hr
    have hb := errorRowsBase_mem data apis scenarios r0 hr0
    have hpos := totalTrackedErrors_pos data apis scenarios r0 hr0
    exact ⟨hb.1, hb.2, by rw [if_pos (ne_of_gt hpos)]⟩
  · rw [totalTrackedErrors,
      foldl_add_eq (fun x : ErrorRowBase => x.count) (errorRowsBase data apis scenarios) 0]
    simp
  · intro data' h
    have hb := errorRowsBase_congr data data' apis scenarios h
    simp only [buildApiErrorCorrelation, totalTrackedErrors, hb]

set_option maxRecDepth 8192 in
/-- Witness for C6: one 404 and three 500s for `api1` in `s1` give a
404 row with count 1 and pct "25.00". -/
theorem buildApiErrorCorrelation_spec_witness :
    (⟨"api1", 404, (1 : ℚ), "25.00"⟩ : ErrorRow) ∈
      buildApiErrorCorrelation eData ["api1"] ["s1"] ∧
    (1 : ℚ) = scenarioStatusCount eData 404 "api1" ["s1"] ∧
    "25.00" = toFixed2 (1 / totalTrackedErrors eData ["api1"] ["s1"] * 100) := by
  have hmem : (⟨"api1", 404, (1 : ℚ), "25.00"⟩ : ErrorRow) ∈
      buildApiErrorCorrelation eData ["api1"] ["s1"] :=
    of_decide_eq_true (by with_unfolding_all rfl)
  have h := (buildApiErrorCorrelation_spec eData ["api1"] ["s1"]).1 _ hmem
  exact ⟨hmem, h.1, h.2.2⟩
